import Mathlib

/-!
# Verification of the toothpick-fractal growth engine

Shallow embedding of the growth engine of this repository
(files toothpick.py and fractal_renderer.py), together with proofs of the
specified properties.

Python floats are modelled as rationals; the Python set of used endpoints is
modelled as a Finset of coordinate pairs; the toothpick list is a Lean list in
the same insertion order as the Python list.  The pygame rendering layer,
configuration loading and event handling are collaborator concerns excluded by
the specification and are not modelled; the configured toothpick length is
passed as an explicit parameter.
-/

/-- Orientation of a toothpick: H for horizontal, V for vertical. -/
inductive Direction where
  | H : Direction
  | V : Direction
deriving DecidableEq, Repr

/-- One toothpick, from toothpick.py: centre coordinates, length, direction. -/
structure Toothpick where
  x : ℚ
  y : ℚ
  length : ℚ
  direction : Direction
deriving DecidableEq, Repr

/-- Endpoints of a toothpick, from Toothpick.get_endpoints: first the negative
side, then the positive side. -/
def Toothpick.get_endpoints (t : Toothpick) : (ℚ × ℚ) × (ℚ × ℚ) :=
  if t.direction = Direction.H then
    ((t.x - t.length / 2, t.y), (t.x + t.length / 2, t.y))
  else
    ((t.x, t.y - t.length / 2), (t.x, t.y + t.length / 2))

/-- Toothpick equality, from Toothpick.__eq__ and __hash__: compares the
(x, y, direction) triple and ignores the length. -/
def tpEq (a b : Toothpick) : Bool :=
  decide (a.x = b.x ∧ a.y = b.y ∧ a.direction = b.direction)

/-- The growth state owned by FractalRenderer: the ordered toothpick list, the
generation counter and the set of endpoints already used to spawn a child.
The frame counter and running flag of the Python class drive the pygame loop
only and are outside the specified core. -/
structure FractalState where
  toothpicks : List Toothpick
  current_generation : ℕ
  used_endpoints : Finset (ℚ × ℚ)
deriving DecidableEq

/-- Initial state, from FractalRenderer.reset_fractal: one vertical toothpick
of the configured length centred at the origin, generation 0, no used
endpoints.  The Python method ignores the prior field values entirely, so it
is a function of the configured length alone. -/
def reset_fractal (cfgLen : ℚ) : FractalState :=
  { toothpicks := [{ x := 0, y := 0, length := cfgLen, direction := Direction.V }]
    current_generation := 0
    used_endpoints := ∅ }

/-- The visit order of generate_next_generation's nested loops: for each
toothpick in list order, its negative-side endpoint then its positive-side
endpoint, paired with the parent toothpick. -/
def visitList : List Toothpick → List (Toothpick × (ℚ × ℚ))
  | [] => []
  | t :: ts => (t, t.get_endpoints.1) :: (t, t.get_endpoints.2) :: visitList ts

/-- Touching count, from the inner scan of generate_next_generation: the
number of toothpicks in the list having the point as one of their two
endpoints (a toothpick whose endpoints coincide still counts once, because the
Python code tests membership of the point in the endpoint pair). -/
def touchingCount (ts : List Toothpick) (e : ℚ × ℚ) : ℕ :=
  ts.countP fun other =>
    decide (e = other.get_endpoints.1 ∨ e = other.get_endpoints.2)

/-- Candidate toothpick spawned at an endpoint, from generate_next_generation:
centred at the endpoint, of the configured length, perpendicular to the parent
(the Python code writes H if the parent direction is V, else V). -/
def candidate (cfgLen : ℚ) (t : Toothpick) (e : ℚ × ℚ) : Toothpick :=
  { x := e.1
    y := e.2
    length := cfgLen
    direction := if t.direction = Direction.V then Direction.H else Direction.V }

/-- The endpoint scan of generate_next_generation.  `orig` is the unmodified
toothpick list of the incoming state (self.toothpicks, extended only after the
loop), `newTs` accumulates new_toothpicks in append order, and `used` is
self.used_endpoints, which the Python code mutates in place during the scan,
so the membership test of each visit consults the set as updated so far. -/
def processVisits (cfgLen : ℚ) (orig : List Toothpick) :
    List (Toothpick × (ℚ × ℚ)) → List Toothpick → Finset (ℚ × ℚ) →
    List Toothpick × Finset (ℚ × ℚ)
  | [], newTs, used => (newTs, used)
  | (t, e) :: rest, newTs, used =>
    if e ∈ used then
      processVisits cfgLen orig rest newTs used
    else if touchingCount orig e = 1 then
      if orig.any (tpEq (candidate cfgLen t e)) = false ∧
          newTs.any (tpEq (candidate cfgLen t e)) = false then
        processVisits cfgLen orig rest (newTs ++ [candidate cfgLen t e])
          (insert e used)
      else
        processVisits cfgLen orig rest newTs used
    else
      processVisits cfgLen orig rest newTs used

/-- One growth step, from FractalRenderer.generate_next_generation: scan all
endpoints, append the accumulated new toothpicks and increment the generation.
The occupied_points set built by the Python method is never read, so it is
omitted. -/
def generate_next_generation (cfgLen : ℚ) (s : FractalState) : FractalState :=
  { toothpicks := s.toothpicks ++
      (processVisits cfgLen s.toothpicks (visitList s.toothpicks) []
        s.used_endpoints).1
    current_generation := s.current_generation + 1
    used_endpoints :=
      (processVisits cfgLen s.toothpicks (visitList s.toothpicks) []
        s.used_endpoints).2 }

/-- Read-only segment count accessor of the specified interface. -/
def segment_count (s : FractalState) : ℕ :=
  s.toothpicks.length

/-- Bounding box, from FractalRenderer.get_bounds: the fallback rectangle on
an empty list, otherwise the running minima and maxima of all endpoint
coordinates.  The Python accumulators start at plus and minus infinity, which
is modelled by folding in WithTop and WithBot of the rationals. -/
def get_bounds (s : FractalState) :
    WithTop ℚ × WithBot ℚ × WithTop ℚ × WithBot ℚ :=
  if s.toothpicks = [] then
    (((-100 : ℚ) : WithTop ℚ), ((100 : ℚ) : WithBot ℚ),
      ((-100 : ℚ) : WithTop ℚ), ((100 : ℚ) : WithBot ℚ))
  else
    (visitList s.toothpicks).foldl
      (fun b p =>
        (min b.1 ((p.2.1 : ℚ) : WithTop ℚ),
         max b.2.1 ((p.2.1 : ℚ) : WithBot ℚ),
         min b.2.2.1 ((p.2.2 : ℚ) : WithTop ℚ),
         max b.2.2.2 ((p.2.2 : ℚ) : WithBot ℚ)))
      (⊤, ⊥, ⊤, ⊥)

/-- States reachable from reset by repeated growth steps, for a fixed
configured length. -/
inductive Reachable (cfgLen : ℚ) : FractalState → Prop
  | reset : Reachable cfgLen (reset_fractal cfgLen)
  | step (s : FractalState) : Reachable cfgLen s →
      Reachable cfgLen (generate_next_generation cfgLen s)

/-- Modelled from the spec: the endpoint scan with the used-endpoint check of
step 3a reading the original, pre-step used set (the spec's first description
of the check), while the marks of step 3d still accumulate into the working
set committed to the next state.  This variant is not in the source; it exists
to be compared with processVisits, whose check reads the set as updated so far
within the step. -/
def processVisitsPre (cfgLen : ℚ) (orig : List Toothpick)
    (preUsed : Finset (ℚ × ℚ)) :
    List (Toothpick × (ℚ × ℚ)) → List Toothpick → Finset (ℚ × ℚ) →
    List Toothpick × Finset (ℚ × ℚ)
  | [], newTs, used => (newTs, used)
  | (t, e) :: rest, newTs, used =>
    if e ∈ preUsed then
      processVisitsPre cfgLen orig preUsed rest newTs used
    else if touchingCount orig e = 1 then
      if orig.any (tpEq (candidate cfgLen t e)) = false ∧
          newTs.any (tpEq (candidate cfgLen t e)) = false then
        processVisitsPre cfgLen orig preUsed rest
          (newTs ++ [candidate cfgLen t e]) (insert e used)
      else
        processVisitsPre cfgLen orig preUsed rest newTs used
    else
      processVisitsPre cfgLen orig preUsed rest newTs used

/-- Modelled from the spec: the growth step whose used-endpoint check consults
only the pre-step used set. -/
def generate_next_generation_pre (cfgLen : ℚ) (s : FractalState) :
    FractalState :=
  { toothpicks := s.toothpicks ++
      (processVisitsPre cfgLen s.toothpicks s.used_endpoints
        (visitList s.toothpicks) [] s.used_endpoints).1
    current_generation := s.current_generation + 1
    used_endpoints :=
      (processVisitsPre cfgLen s.toothpicks s.used_endpoints
        (visitList s.toothpicks) [] s.used_endpoints).2 }

/-- Modelled from the spec: one increment of the coordinate-keyed Endpoint
Index at a key, as an association list acting as the spec's mapping. -/
def bumpKey : List ((ℚ × ℚ) × ℕ) → (ℚ × ℚ) → List ((ℚ × ℚ) × ℕ)
  | [], p => [(p, 1)]
  | (q, n) :: rest, p =>
    if q = p then (q, n + 1) :: rest else (q, n) :: bumpKey rest p

/-- Modelled from the spec: the one-pass construction of the Endpoint Index,
incrementing the count at each of a segment's two endpoints. -/
def buildIndexAux (m : List ((ℚ × ℚ) × ℕ)) :
    List Toothpick → List ((ℚ × ℚ) × ℕ)
  | [] => m
  | t :: ts =>
    buildIndexAux (bumpKey (bumpKey m t.get_endpoints.1) t.get_endpoints.2) ts

/-- Modelled from the spec: build(segments), the Endpoint Index of a segment
list, starting from the empty mapping. -/
def buildIndex (ts : List Toothpick) : List ((ℚ × ℚ) × ℕ) :=
  buildIndexAux [] ts

/-- Modelled from the spec: touching_count(index, point), the count stored at
a coordinate, or 0 when the coordinate is absent. -/
def touching_count (m : List ((ℚ × ℚ) × ℕ)) (p : ℚ × ℚ) : ℕ :=
  match m with
  | [] => 0
  | kv :: rest => if kv.1 = p then kv.2 else touching_count rest p

/-- Modelled from the spec: the endpoint scan reading its touching counts from
a prebuilt Endpoint Index instead of the direct pairwise scan. -/
def processVisitsIdx (cfgLen : ℚ) (orig : List Toothpick) :
    List (Toothpick × (ℚ × ℚ)) → List Toothpick → Finset (ℚ × ℚ) →
    List Toothpick × Finset (ℚ × ℚ)
  | [], newTs, used => (newTs, used)
  | (t, e) :: rest, newTs, used =>
    if e ∈ used then
      processVisitsIdx cfgLen orig rest newTs used
    else if touching_count (buildIndex orig) e = 1 then
      if orig.any (tpEq (candidate cfgLen t e)) = false ∧
          newTs.any (tpEq (candidate cfgLen t e)) = false then
        processVisitsIdx cfgLen orig rest (newTs ++ [candidate cfgLen t e])
          (insert e used)
      else
        processVisitsIdx cfgLen orig rest newTs used
    else
      processVisitsIdx cfgLen orig rest newTs used

/-- Modelled from the spec: the growth step using the indexed touching count,
the spec's recommended substitution for the pairwise scan. -/
def generate_next_generation_idx (cfgLen : ℚ) (s : FractalState) :
    FractalState :=
  { toothpicks := s.toothpicks ++
      (processVisitsIdx cfgLen s.toothpicks (visitList s.toothpicks) []
        s.used_endpoints).1
    current_generation := s.current_generation + 1
    used_endpoints :=
      (processVisitsIdx cfgLen s.toothpicks (visitList s.toothpicks) []
        s.used_endpoints).2 }

lemma tpEq_iff (a b : Toothpick) :
    tpEq a b = true ↔ a.x = b.x ∧ a.y = b.y ∧ a.direction = b.direction := by
  simp [tpEq]

lemma tpEq_refl (a : Toothpick) : tpEq a a = true := by
  simp [tpEq]

lemma tpEq_symm (a b : Toothpick) : tpEq a b = tpEq b a := by
  simp only [tpEq, decide_eq_decide]
  constructor <;> rintro ⟨h1, h2, h3⟩ <;> exact ⟨h1.symm, h2.symm, h3.symm⟩

lemma mem_visitList {ts : List Toothpick} {p : Toothpick × (ℚ × ℚ)}
    (hp : p ∈ visitList ts) :
    p.1 ∈ ts ∧ (p.2 = p.1.get_endpoints.1 ∨ p.2 = p.1.get_endpoints.2) := by
  induction ts with
  | nil => simp [visitList] at hp
  | cons t ts ih =>
    simp only [visitList, List.mem_cons] at hp
    rcases hp with h | h | h
    · subst h; simp
    · subst h; simp
    · have := ih h
      exact ⟨List.mem_cons_of_mem _ this.1, this.2⟩

lemma countP_eq_one_unique {α : Type} {p : α → Bool} {l : List α}
    (h : l.countP p = 1) {a b : α} (ha : a ∈ l) (hpa : p a = true)
    (hb : b ∈ l) (hpb : p b = true) : a = b := by
  rw [List.countP_eq_length_filter] at h
  obtain ⟨c, hc⟩ := List.length_eq_one.mp h
  have hac : a ∈ l.filter p := List.mem_filter.mpr ⟨ha, hpa⟩
  have hbc : b ∈ l.filter p := List.mem_filter.mpr ⟨hb, hpb⟩
  rw [hc, List.mem_singleton] at hac hbc
  rw [hac, hbc]

lemma pv_skip_used {cfgLen : ℚ} {orig : List Toothpick} {t : Toothpick}
    {e : ℚ × ℚ} {rest : List (Toothpick × (ℚ × ℚ))} {newTs : List Toothpick}
    {used : Finset (ℚ × ℚ)} (h : e ∈ used) :
    processVisits cfgLen orig ((t, e) :: rest) newTs used =
      processVisits cfgLen orig rest newTs used := by
  simp only [processVisits, if_pos h]

lemma pv_skip_count {cfgLen : ℚ} {orig : List Toothpick} {t : Toothpick}
    {e : ℚ × ℚ} {rest : List (Toothpick × (ℚ × ℚ))} {newTs : List Toothpick}
    {used : Finset (ℚ × ℚ)} (h1 : e ∉ used)
    (h2 : touchingCount orig e ≠ 1) :
    processVisits cfgLen orig ((t, e) :: rest) newTs used =
      processVisits cfgLen orig rest newTs used := by
  simp only [processVisits, if_neg h1, if_neg h2]

lemma pv_skip_dup {cfgLen : ℚ} {orig : List Toothpick} {t : Toothpick}
    {e : ℚ × ℚ} {rest : List (Toothpick × (ℚ × ℚ))} {newTs : List Toothpick}
    {used : Finset (ℚ × ℚ)} (h1 : e ∉ used)
    (h2 : touchingCount orig e = 1)
    (h3 : ¬(orig.any (tpEq (candidate cfgLen t e)) = false ∧
      newTs.any (tpEq (candidate cfgLen t e)) = false)) :
    processVisits cfgLen orig ((t, e) :: rest) newTs used =
      processVisits cfgLen orig rest newTs used := by
  simp only [processVisits, if_neg h1, if_pos h2, if_neg h3]

lemma pv_append {cfgLen : ℚ} {orig : List Toothpick} {t : Toothpick}
    {e : ℚ × ℚ} {rest : List (Toothpick × (ℚ × ℚ))} {newTs : List Toothpick}
    {used : Finset (ℚ × ℚ)} (h1 : e ∉ used)
    (h2 : touchingCount orig e = 1)
    (h3 : orig.any (tpEq (candidate cfgLen t e)) = false)
    (h4 : newTs.any (tpEq (candidate cfgLen t e)) = false) :
    processVisits cfgLen orig ((t, e) :: rest) newTs used =
      processVisits cfgLen orig rest (newTs ++ [candidate cfgLen t e])
        (insert e used) := by
  simp only [processVisits, if_neg h1, if_pos h2, if_pos (And.intro h3 h4)]

lemma pv_used_mono (cfgLen : ℚ) (orig : List Toothpick) :
    ∀ (vs : List (Toothpick × (ℚ × ℚ))) (newTs : List Toothpick)
      (used : Finset (ℚ × ℚ)),
      used ⊆ (processVisits cfgLen orig vs newTs used).2 := by
  intro vs
  induction vs with
  | nil => intro newTs used; simp [processVisits]
  | cons p rest ih =>
    obtain ⟨t, e⟩ := p
    intro newTs used
    by_cases h1 : e ∈ used
    · rw [pv_skip_used h1]; exact ih newTs used
    · by_cases h2 : touchingCount orig e = 1
      · by_cases h3 : orig.any (tpEq (candidate cfgLen t e)) = false ∧
            newTs.any (tpEq (candidate cfgLen t e)) = false
        · rw [pv_append h1 h2 h3.1 h3.2]
          exact (Finset.subset_insert e used).trans (ih _ _)
        · rw [pv_skip_dup h1 h2 h3]; exact ih newTs used
      · rw [pv_skip_count h1 h2]; exact ih newTs used

lemma pv_card (cfgLen : ℚ) (orig : List Toothpick) :
    ∀ (vs : List (Toothpick × (ℚ × ℚ))) (newTs : List Toothpick)
      (used : Finset (ℚ × ℚ)),
      (processVisits cfgLen orig vs newTs used).2.card + newTs.length =
        used.card + (processVisits cfgLen orig vs newTs used).1.length := by
  intro vs
  induction vs with
  | nil => intro newTs used; simp [processVisits]
  | cons p rest ih =>
    obtain ⟨t, e⟩ := p
    intro newTs used
    by_cases h1 : e ∈ used
    · rw [pv_skip_used h1]; exact ih newTs used
    · by_cases h2 : touchingCount orig e = 1
      · by_cases h3 : orig.any (tpEq (candidate cfgLen t e)) = false ∧
            newTs.any (tpEq (candidate cfgLen t e)) = false
        · rw [pv_append h1 h2 h3.1 h3.2]
          have := ih (newTs ++ [candidate cfgLen t e]) (insert e used)
          rw [Finset.card_insert_of_not_mem h1] at this
          simp only [List.length_append, List.length_singleton] at this
          omega
        · rw [pv_skip_dup h1 h2 h3]; exact ih newTs used
      · rw [pv_skip_count h1 h2]; exact ih newTs used

lemma pv_center_not_used (cfgLen : ℚ) (orig : List Toothpick)
    (S : Finset (ℚ × ℚ)) :
    ∀ (vs : List (Toothpick × (ℚ × ℚ))) (newTs : List Toothpick)
      (used : Finset (ℚ × ℚ)), S ⊆ used →
      (∀ u ∈ newTs, (u.x, u.y) ∉ S) →
      ∀ u ∈ (processVisits cfgLen orig vs newTs used).1, (u.x, u.y) ∉ S := by
  intro vs
  induction vs with
  | nil =>
    intro newTs used _ hnew
    simpa [processVisits] using hnew
  | cons p rest ih =>
    obtain ⟨t, e⟩ := p
    intro newTs used hS hnew
    by_cases h1 : e ∈ used
    · rw [pv_skip_used h1]; exact ih newTs used hS hnew
    · by_cases h2 : touchingCount orig e = 1
      · by_cases h3 : orig.any (tpEq (candidate cfgLen t e)) = false ∧
            newTs.any (tpEq (candidate cfgLen t e)) = false
        · rw [pv_append h1 h2 h3.1 h3.2]
          refine ih _ _ (hS.trans (Finset.subset_insert e used)) ?_
          intro u hu
          rcases List.mem_append.mp hu with hu | hu
          · exact hnew u hu
          · rw [List.mem_singleton] at hu
            subst hu
            simp only [candidate]
            intro hmem
            exact h1 (hS hmem)
        · rw [pv_skip_dup h1 h2 h3]; exact ih newTs used hS hnew
      · rw [pv_skip_count h1 h2]; exact ih newTs used hS hnew

lemma any_eq_false_forall {α : Type} {p : α → Bool} {l : List α}
    (h : l.any p = false) {a : α} (ha : a ∈ l) : p a = false := by
  rw [List.any_eq_false] at h
  have := h a ha
  revert this
  cases p a <;> simp

lemma pv_nodup (cfgLen : ℚ) (orig : List Toothpick) :
    ∀ (vs : List (Toothpick × (ℚ × ℚ))) (newTs : List Toothpick)
      (used : Finset (ℚ × ℚ)),
      List.Pairwise (fun a b => tpEq a b = false) newTs →
      (∀ b ∈ newTs, ∀ o ∈ orig, tpEq b o = false) →
      List.Pairwise (fun a b => tpEq a b = false)
        (processVisits cfgLen orig vs newTs used).1 ∧
      (∀ b ∈ (processVisits cfgLen orig vs newTs used).1, ∀ o ∈ orig,
        tpEq b o = false) := by
  intro vs
  induction vs with
  | nil =>
    intro newTs used hpw hcross
    simpa [processVisits] using ⟨hpw, hcross⟩
  | cons p rest ih =>
    obtain ⟨t, e⟩ := p
    intro newTs used hpw hcross
    by_cases h1 : e ∈ used
    · rw [pv_skip_used h1]; exact ih newTs used hpw hcross
    · by_cases h2 : touchingCount orig e = 1
      · by_cases h3 : orig.any (tpEq (candidate cfgLen t e)) = false ∧
            newTs.any (tpEq (candidate cfgLen t e)) = false
        · rw [pv_append h1 h2 h3.1 h3.2]
          refine ih _ _ ?_ ?_
          · refine List.pairwise_append.mpr
              ⟨hpw, List.pairwise_singleton _ _, ?_⟩
            intro a ha b hb
            rw [List.mem_singleton] at hb
            subst hb
            rw [tpEq_symm]
            exact any_eq_false_forall h3.2 ha
          · intro b hb o ho
            rcases List.mem_append.mp hb with hb | hb
            · exact hcross b hb o ho
            · rw [List.mem_singleton] at hb
              subst hb
              exact any_eq_false_forall h3.1 ho
        · rw [pv_skip_dup h1 h2 h3]; exact ih newTs used hpw hcross
      · rw [pv_skip_count h1 h2]; exact ih newTs used hpw hcross

lemma pv_noop (cfgLen : ℚ) (orig : List Toothpick) :
    ∀ (vs : List (Toothpick × (ℚ × ℚ))) (newTs : List Toothpick)
      (used : Finset (ℚ × ℚ)),
      (∀ p ∈ vs, p.2 ∈ used ∨ touchingCount orig p.2 ≠ 1 ∨
        orig.any (tpEq (candidate cfgLen p.1 p.2)) = true) →
      processVisits cfgLen orig vs newTs used = (newTs, used) := by
  intro vs
  induction vs with
  | nil => intro newTs used _; simp [processVisits]
  | cons p rest ih =>
    obtain ⟨t, e⟩ := p
    intro newTs used hvs
    have hrest : ∀ p ∈ rest, p.2 ∈ used ∨ touchingCount orig p.2 ≠ 1 ∨
        orig.any (tpEq (candidate cfgLen p.1 p.2)) = true :=
      fun p hp => hvs p (List.mem_cons_of_mem _ hp)
    have hp := hvs (t, e) (List.mem_cons_self _ _)
    by_cases h1 : e ∈ used
    · rw [pv_skip_used h1]; exact ih newTs used hrest
    · by_cases h2 : touchingCount orig e = 1
      · rcases hp with hp | hp | hp
        · exact absurd hp h1
        · exact absurd h2 hp
        · have h3 : ¬(orig.any (tpEq (candidate cfgLen t e)) = false ∧
              newTs.any (tpEq (candidate cfgLen t e)) = false) := by
            intro hc
            rw [hc.1] at hp
            exact Bool.false_ne_true hp
          rw [pv_skip_dup h1 h2 h3]
          exact ih newTs used hrest
      · rw [pv_skip_count h1 h2]; exact ih newTs used hrest

lemma pv_eq_pre (cfgLen : ℚ) (orig : List Toothpick)
    (preUsed : Finset (ℚ × ℚ)) :
    ∀ (vs : List (Toothpick × (ℚ × ℚ))) (newTs : List Toothpick)
      (used : Finset (ℚ × ℚ)),
      (∀ p ∈ vs, p.1 ∈ orig ∧
        (p.2 = p.1.get_endpoints.1 ∨ p.2 = p.1.get_endpoints.2)) →
      preUsed ⊆ used →
      (∀ e ∈ used, e ∉ preUsed → touchingCount orig e = 1 ∧
        ∀ t ∈ orig, (e = t.get_endpoints.1 ∨ e = t.get_endpoints.2) →
          candidate cfgLen t e ∈ newTs) →
      processVisits cfgLen orig vs newTs used =
        processVisitsPre cfgLen orig preUsed vs newTs used := by
  intro vs
  induction vs with
  | nil => intro newTs used _ _ _; simp [processVisits, processVisitsPre]
  | cons p rest ih =>
    obtain ⟨t, e⟩ := p
    intro newTs used hvs hsub hinv
    have hrest : ∀ p ∈ rest, p.1 ∈ orig ∧
        (p.2 = p.1.get_endpoints.1 ∨ p.2 = p.1.get_endpoints.2) :=
      fun p hp => hvs p (List.mem_cons_of_mem _ hp)
    obtain ⟨htmem, hte⟩ := hvs (t, e) (List.mem_cons_self _ _)
    by_cases h1 : e ∈ used
    · by_cases h1p : e ∈ preUsed
      · rw [pv_skip_used h1]
        simp only [processVisitsPre, if_pos h1p]
        exact ih newTs used hrest hsub hinv
      · obtain ⟨hc1, hc2⟩ := hinv e h1 h1p
        have hmem : candidate cfgLen t e ∈ newTs := hc2 t htmem hte
        have hany : newTs.any (tpEq (candidate cfgLen t e)) = true :=
          List.any_eq_true.mpr ⟨candidate cfgLen t e, hmem, tpEq_refl _⟩
        have hnd : ¬(orig.any (tpEq (candidate cfgLen t e)) = false ∧
            newTs.any (tpEq (candidate cfgLen t e)) = false) := by
          intro hc
          rw [hany] at hc
          simp at hc
        rw [pv_skip_used h1]
        simp only [processVisitsPre, if_neg h1p, if_pos hc1, if_neg hnd]
        exact ih newTs used hrest hsub hinv
    · have h1p : e ∉ preUsed := fun h => h1 (hsub h)
      by_cases h2 : touchingCount orig e = 1
      · by_cases h3 : orig.any (tpEq (candidate cfgLen t e)) = false ∧
            newTs.any (tpEq (candidate cfgLen t e)) = false
        · rw [pv_append h1 h2 h3.1 h3.2]
          simp only [processVisitsPre, if_neg h1p, if_pos h2, if_pos h3]
          refine ih _ _ hrest (hsub.trans (Finset.subset_insert e used)) ?_
          intro e' he' hne
          rcases Finset.mem_insert.mp he' with he' | he'
          · subst he'
            refine ⟨h2, ?_⟩
            intro t' ht' hep'
            have h2' : orig.countP (fun other =>
                decide (e' = other.get_endpoints.1 ∨
                  e' = other.get_endpoints.2)) = 1 := h2
            have huniq : t = t' := countP_eq_one_unique h2' htmem
              (decide_eq_true hte) ht' (decide_eq_true hep')
            rw [← huniq]
            exact List.mem_append_right _ (List.mem_singleton.mpr rfl)
          · obtain ⟨hc1, hc2⟩ := hinv e' he' hne
            exact ⟨hc1, fun t' ht' hep' =>
              List.mem_append_left _ (hc2 t' ht' hep')⟩
        · rw [pv_skip_dup h1 h2 h3]
          simp only [processVisitsPre, if_neg h1p, if_pos h2, if_neg h3]
          exact ih newTs used hrest hsub hinv
      · rw [pv_skip_count h1 h2]
        simp only [processVisitsPre, if_neg h1p, if_neg h2]
        exact ih newTs used hrest hsub hinv

lemma lookup_bump (m : List ((ℚ × ℚ) × ℕ)) (q p : ℚ × ℚ) :
    touching_count (bumpKey m q) p =
      touching_count m p + (if p = q then 1 else 0) := by
  induction m with
  | nil =>
    by_cases h : q = p
    · simp [bumpKey, touching_count, h]
    · have h' : ¬p = q := fun hc => h hc.symm
      simp [bumpKey, touching_count, h, h']
  | cons kv rest ih =>
    obtain ⟨k, n⟩ := kv
    by_cases hk : k = q
    · by_cases hp : k = p
      · have hpq : p = q := hp.symm.trans hk
        simp [bumpKey, touching_count, hk, hp, hpq]
      · have hpq : ¬p = q := fun hc => hp (hk.trans hc.symm)
        have hqp : ¬q = p := fun hc => hp (hk.trans hc)
        simp [bumpKey, touching_count, hk, hp, hpq, hqp]
    · by_cases hp : k = p
      · have hpq : ¬p = q := fun hc => hk (hp.trans hc)
        simp [bumpKey, touching_count, hk, hp, hpq]
      · simp [bumpKey, touching_count, hk, hp, ih]

lemma buildIndexAux_lookup (p : ℚ × ℚ) :
    ∀ (ts : List Toothpick) (m : List ((ℚ × ℚ) × ℕ)),
      touching_count (buildIndexAux m ts) p = touching_count m p +
        ts.countP (fun t => decide (p = t.get_endpoints.1)) +
        ts.countP (fun t => decide (p = t.get_endpoints.2)) := by
  intro ts
  induction ts with
  | nil => intro m; simp [buildIndexAux]
  | cons t ts ih =>
    intro m
    simp only [buildIndexAux]
    rw [ih, lookup_bump, lookup_bump]
    simp only [List.countP_cons, decide_eq_true_eq]
    by_cases hA : p = t.get_endpoints.1 <;>
      by_cases hB : p = t.get_endpoints.2
    · rw [if_pos hA, if_pos hB]; omega
    · rw [if_pos hA, if_neg hB]; omega
    · rw [if_neg hA, if_pos hB]; omega
    · rw [if_neg hA, if_neg hB]; omega

lemma endpoints_ne {t : Toothpick} (h : t.length ≠ 0) :
    t.get_endpoints.1 ≠ t.get_endpoints.2 := by
  unfold Toothpick.get_endpoints
  by_cases hd : t.direction = Direction.H
  · rw [if_pos hd]
    intro hc
    rw [Prod.mk.injEq] at hc
    apply h
    linarith [hc.1]
  · rw [if_neg hd]
    intro hc
    rw [Prod.mk.injEq] at hc
    apply h
    linarith [hc.2]

lemma countP_or_split (p : ℚ × ℚ) :
    ∀ ts : List Toothpick, (∀ t ∈ ts, t.length ≠ 0) →
      ts.countP (fun t => decide (p = t.get_endpoints.1)) +
        ts.countP (fun t => decide (p = t.get_endpoints.2)) =
        touchingCount ts p := by
  intro ts
  induction ts with
  | nil => intro _; rfl
  | cons t ts ih =>
    intro h
    have hne := endpoints_ne (h t (List.mem_cons_self _ _))
    have ihh := ih fun u hu => h u (List.mem_cons_of_mem _ hu)
    simp only [touchingCount, List.countP_cons, decide_eq_true_eq] at ihh ⊢
    by_cases hA : p = t.get_endpoints.1 <;>
      by_cases hB : p = t.get_endpoints.2
    · exact absurd (hA.symm.trans hB) hne
    · rw [if_pos hA, if_neg hB, if_pos (Or.inl hA)]; omega
    · rw [if_neg hA, if_pos hB, if_pos (Or.inr hB)]; omega
    · rw [if_neg hA, if_neg hB, if_neg (fun hc => hc.elim hA hB)]; omega

lemma index_count_eq {ts : List Toothpick} (h : ∀ t ∈ ts, t.length ≠ 0)
    (p : ℚ × ℚ) : touching_count (buildIndex ts) p = touchingCount ts p := by
  rw [buildIndex, buildIndexAux_lookup]
  simp only [touching_count]
  rw [Nat.zero_add]
  exact countP_or_split p ts h

lemma pv_idx_eq (cfgLen : ℚ) (orig : List Toothpick)
    (hc : ∀ p : ℚ × ℚ, touching_count (buildIndex orig) p =
      touchingCount orig p) :
    ∀ (vs : List (Toothpick × (ℚ × ℚ))) (newTs : List Toothpick)
      (used : Finset (ℚ × ℚ)),
      processVisitsIdx cfgLen orig vs newTs used =
        processVisits cfgLen orig vs newTs used := by
  intro vs
  induction vs with
  | nil => intro newTs used; simp [processVisits, processVisitsIdx]
  | cons p rest ih =>
    obtain ⟨t, e⟩ := p
    intro newTs used
    by_cases h1 : e ∈ used
    · simp only [processVisits, processVisitsIdx, if_pos h1]
      exact ih newTs used
    · by_cases h2 : touchingCount orig e = 1
      · have h2' : touching_count (buildIndex orig) e = 1 := by
          rw [hc]; exact h2
        by_cases h3 : orig.any (tpEq (candidate cfgLen t e)) = false ∧
            newTs.any (tpEq (candidate cfgLen t e)) = false
        · simp only [processVisits, processVisitsIdx, if_neg h1, if_pos h2,
            if_pos h2', if_pos h3]
          exact ih _ _
        · simp only [processVisits, processVisitsIdx, if_neg h1, if_pos h2,
            if_pos h2', if_neg h3]
          exact ih newTs used
      · have h2' : touching_count (buildIndex orig) e ≠ 1 := by
          rw [hc]; exact h2
        simp only [processVisits, processVisitsIdx, if_neg h1, if_neg h2,
          if_neg h2']
        exact ih newTs used

/-- The state after one step from the seed, written out explicitly. -/
def stateGen1 (L : ℚ) : FractalState :=
  { toothpicks :=
      [{ x := 0, y := 0, length := L, direction := Direction.V },
       { x := 0, y := -(L / 2), length := L, direction := Direction.H },
       { x := 0, y := L / 2, length := L, direction := Direction.H }]
    current_generation := 1
    used_endpoints := {((0 : ℚ), L / 2), ((0 : ℚ), -(L / 2))} }

/-- The state after two steps from the seed, written out explicitly. -/
def stateGen2 (L : ℚ) : FractalState :=
  { toothpicks :=
      [{ x := 0, y := 0, length := L, direction := Direction.V },
       { x := 0, y := -(L / 2), length := L, direction := Direction.H },
       { x := 0, y := L / 2, length := L, direction := Direction.H },
       { x := -(L / 2), y := -(L / 2), length := L, direction := Direction.V },
       { x := L / 2, y := -(L / 2), length := L, direction := Direction.V },
       { x := -(L / 2), y := L / 2, length := L, direction := Direction.V },
       { x := L / 2, y := L / 2, length := L, direction := Direction.V }]
    current_generation := 2
    used_endpoints :=
      {((L / 2 : ℚ), L / 2), (-(L / 2), L / 2), ((L / 2 : ℚ), -(L / 2)),
       (-(L / 2), -(L / 2)), ((0 : ℚ), L / 2), ((0 : ℚ), -(L / 2))} }

lemma step_reset_eq (L : ℚ) (hL : L ≠ 0) :
    generate_next_generation L (reset_fractal L) = stateGen1 L := by
  have hne : (L / 2 : ℚ) ≠ -(L / 2) := by
    intro h; apply hL; linarith
  have hv : visitList
      [({ x := 0, y := 0, length := L, direction := Direction.V } :
        Toothpick)] =
      [({ x := 0, y := 0, length := L, direction := Direction.V },
         ((0 : ℚ), -(L / 2))),
       ({ x := 0, y := 0, length := L, direction := Direction.V },
         ((0 : ℚ), L / 2))] := by
    simp [visitList, Toothpick.get_endpoints]
  have hA2 : touchingCount
      [({ x := 0, y := 0, length := L, direction := Direction.V } :
        Toothpick)] ((0 : ℚ), -(L / 2)) = 1 := by
    simp [touchingCount, Toothpick.get_endpoints]
  have hA3 : ([({ x := 0, y := 0, length := L, direction := Direction.V } :
      Toothpick)]).any
      (tpEq (candidate L
        { x := 0, y := 0, length := L, direction := Direction.V }
        ((0 : ℚ), -(L / 2)))) = false := by
    simp [tpEq, candidate]
  have hA4 : (([] : List Toothpick)).any
      (tpEq (candidate L
        { x := 0, y := 0, length := L, direction := Direction.V }
        ((0 : ℚ), -(L / 2)))) = false := rfl
  have hB1 : ((0 : ℚ), L / 2) ∉
      insert ((0 : ℚ), -(L / 2)) (∅ : Finset (ℚ × ℚ)) := by
    simp [hne]
  have hB2 : touchingCount
      [({ x := 0, y := 0, length := L, direction := Direction.V } :
        Toothpick)] ((0 : ℚ), L / 2) = 1 := by
    simp [touchingCount, Toothpick.get_endpoints, hne]
  have hB3 : ([({ x := 0, y := 0, length := L, direction := Direction.V } :
      Toothpick)]).any
      (tpEq (candidate L
        { x := 0, y := 0, length := L, direction := Direction.V }
        ((0 : ℚ), L / 2))) = false := by
    simp [tpEq, candidate]
  have hB4 : ([candidate L
      { x := 0, y := 0, length := L, direction := Direction.V }
      ((0 : ℚ), -(L / 2))]).any
      (tpEq (candidate L
        { x := 0, y := 0, length := L, direction := Direction.V }
        ((0 : ℚ), L / 2))) = false := by
    simp [tpEq, candidate, hne]
  have hpv : processVisits L
      [({ x := 0, y := 0, length := L, direction := Direction.V } :
        Toothpick)]
      [({ x := 0, y := 0, length := L, direction := Direction.V },
         ((0 : ℚ), -(L / 2))),
       ({ x := 0, y := 0, length := L, direction := Direction.V },
         ((0 : ℚ), L / 2))] [] ∅ =
      ([candidate L
          { x := 0, y := 0, length := L, direction := Direction.V }
          ((0 : ℚ), -(L / 2)),
        candidate L
          { x := 0, y := 0, length := L, direction := Direction.V }
          ((0 : ℚ), L / 2)],
       insert ((0 : ℚ), L / 2)
         (insert ((0 : ℚ), -(L / 2)) (∅ : Finset (ℚ × ℚ)))) := by
    rw [pv_append (Finset.not_mem_empty _) hA2 hA3 hA4]
    simp only [List.nil_append]
    rw [pv_append hB1 hB2 hB3 hB4]
    simp [processVisits]
  simp only [generate_next_generation, reset_fractal]
  rw [hv, hpv]
  simp [stateGen1, candidate]

lemma step_stateGen1_eq (L : ℚ) (hL : L ≠ 0) :
    generate_next_generation L (stateGen1 L) = stateGen2 L := by
  have hz2 : (L / 2 : ℚ) ≠ 0 := by intro h; apply hL; linarith
  have hn1 : (-(L / 2) : ℚ) ≠ L / 2 := by intro h; apply hL; linarith
  have hn2 : (L / 2 : ℚ) ≠ -(L / 2) := fun h => hn1 h.symm
  have hv : visitList [({ x := 0, y := 0, length := L, direction := Direction.V } : Toothpick), { x := 0, y := -(L / 2), length := L, direction := Direction.H }, { x := 0, y := L / 2, length := L, direction := Direction.H }] =
      [({ x := 0, y := 0, length := L, direction := Direction.V }, ((0 : ℚ), -(L / 2))),
       ({ x := 0, y := 0, length := L, direction := Direction.V }, ((0 : ℚ), L / 2)),
       ({ x := 0, y := -(L / 2), length := L, direction := Direction.H }, ((-(L / 2) : ℚ), -(L / 2))),
       ({ x := 0, y := -(L / 2), length := L, direction := Direction.H }, ((L / 2 : ℚ), -(L / 2))),
       ({ x := 0, y := L / 2, length := L, direction := Direction.H }, ((-(L / 2) : ℚ), L / 2)),
       ({ x := 0, y := L / 2, length := L, direction := Direction.H }, ((L / 2 : ℚ), L / 2))] := by
    simp [visitList, Toothpick.get_endpoints]
  have M1 : ((0 : ℚ), -(L / 2)) ∈ ({((0 : ℚ), L / 2), ((0 : ℚ), -(L / 2))} : Finset (ℚ × ℚ)) := by simp
  have M2 : ((0 : ℚ), L / 2) ∈ ({((0 : ℚ), L / 2), ((0 : ℚ), -(L / 2))} : Finset (ℚ × ℚ)) := by simp
  have H31 : ((-(L / 2) : ℚ), -(L / 2)) ∉ ({((0 : ℚ), L / 2), ((0 : ℚ), -(L / 2))} : Finset (ℚ × ℚ)) := by simp [hz2, hn1, hn2]
  have H32 : touchingCount [({ x := 0, y := 0, length := L, direction := Direction.V } : Toothpick), { x := 0, y := -(L / 2), length := L, direction := Direction.H }, { x := 0, y := L / 2, length := L, direction := Direction.H }] ((-(L / 2) : ℚ), -(L / 2)) = 1 := by
    simp [touchingCount, Toothpick.get_endpoints, hz2, hn1, hn2]
  have H33 : ([({ x := 0, y := 0, length := L, direction := Direction.V } : Toothpick), { x := 0, y := -(L / 2), length := L, direction := Direction.H }, { x := 0, y := L / 2, length := L, direction := Direction.H }]).any (tpEq (candidate L { x := 0, y := -(L / 2), length := L, direction := Direction.H } ((-(L / 2) : ℚ), -(L / 2)))) = false := by
    simp [tpEq, candidate, hz2]
  have H34 : (([] : List Toothpick)).any (tpEq (candidate L { x := 0, y := -(L / 2), length := L, direction := Direction.H } ((-(L / 2) : ℚ), -(L / 2)))) = false := rfl
  have H41 : ((L / 2 : ℚ), -(L / 2)) ∉ insert ((-(L / 2) : ℚ), -(L / 2)) (({((0 : ℚ), L / 2), ((0 : ℚ), -(L / 2))} : Finset (ℚ × ℚ))) := by simp [hz2, hn1, hn2]
  have H42 : touchingCount [({ x := 0, y := 0, length := L, direction := Direction.V } : Toothpick), { x := 0, y := -(L / 2), length := L, direction := Direction.H }, { x := 0, y := L / 2, length := L, direction := Direction.H }] ((L / 2 : ℚ), -(L / 2)) = 1 := by
    simp [touchingCount, Toothpick.get_endpoints, hz2, hn1, hn2]
  have H43 : ([({ x := 0, y := 0, length := L, direction := Direction.V } : Toothpick), { x := 0, y := -(L / 2), length := L, direction := Direction.H }, { x := 0, y := L / 2, length := L, direction := Direction.H }]).any (tpEq (candidate L { x := 0, y := -(L / 2), length := L, direction := Direction.H } ((L / 2 : ℚ), -(L / 2)))) = false := by
    simp [tpEq, candidate, hz2]
  have H44 : (([] : List Toothpick) ++ [candidate L { x := 0, y := -(L / 2), length := L, direction := Direction.H } ((-(L / 2) : ℚ), -(L / 2))]).any (tpEq (candidate L { x := 0, y := -(L / 2), length := L, direction := Direction.H } ((L / 2 : ℚ), -(L / 2)))) = false := by
    simp [tpEq, candidate, hz2, hn1, hn2]
  have H51 : ((-(L / 2) : ℚ), L / 2) ∉ insert ((L / 2 : ℚ), -(L / 2)) (insert ((-(L / 2) : ℚ), -(L / 2)) (({((0 : ℚ), L / 2), ((0 : ℚ), -(L / 2))} : Finset (ℚ × ℚ)))) := by simp [hz2, hn1, hn2]
  have H52 : touchingCount [({ x := 0, y := 0, length := L, direction := Direction.V } : Toothpick), { x := 0, y := -(L / 2), length := L, direction := Direction.H }, { x := 0, y := L / 2, length := L, direction := Direction.H }] ((-(L / 2) : ℚ), L / 2) = 1 := by
    simp [touchingCount, Toothpick.get_endpoints, hz2, hn1, hn2]
  have H53 : ([({ x := 0, y := 0, length := L, direction := Direction.V } : Toothpick), { x := 0, y := -(L / 2), length := L, direction := Direction.H }, { x := 0, y := L / 2, length := L, direction := Direction.H }]).any (tpEq (candidate L { x := 0, y := L / 2, length := L, direction := Direction.H } ((-(L / 2) : ℚ), L / 2))) = false := by
    simp [tpEq, candidate, hz2]
  have H54 : ((([] : List Toothpick) ++ [candidate L { x := 0, y := -(L / 2), length := L, direction := Direction.H } ((-(L / 2) : ℚ), -(L / 2))]) ++ [candidate L { x := 0, y := -(L / 2), length := L, direction := Direction.H } ((L / 2 : ℚ), -(L / 2))]).any
      (tpEq (candidate L { x := 0, y := L / 2, length := L, direction := Direction.H } ((-(L / 2) : ℚ), L / 2))) = false := by
    simp [tpEq, candidate, hz2, hn1, hn2]
  have H61 : ((L / 2 : ℚ), L / 2) ∉ insert ((-(L / 2) : ℚ), L / 2) (insert ((L / 2 : ℚ), -(L / 2)) (insert ((-(L / 2) : ℚ), -(L / 2)) (({((0 : ℚ), L / 2), ((0 : ℚ), -(L / 2))} : Finset (ℚ × ℚ))))) := by
    simp [hz2, hn1, hn2]
  have H62 : touchingCount [({ x := 0, y := 0, length := L, direction := Direction.V } : Toothpick), { x := 0, y := -(L / 2), length := L, direction := Direction.H }, { x := 0, y := L / 2, length := L, direction := Direction.H }] ((L / 2 : ℚ), L / 2) = 1 := by
    simp [touchingCount, Toothpick.get_endpoints, hz2, hn1, hn2]
  have H63 : ([({ x := 0, y := 0, length := L, direction := Direction.V } : Toothpick), { x := 0, y := -(L / 2), length := L, direction := Direction.H }, { x := 0, y := L / 2, length := L, direction := Direction.H }]).any (tpEq (candidate L { x := 0, y := L / 2, length := L, direction := Direction.H } ((L / 2 : ℚ), L / 2))) = false := by
    simp [tpEq, candidate, hz2]
  have H64 : (((([] : List Toothpick) ++ [candidate L { x := 0, y := -(L / 2), length := L, direction := Direction.H } ((-(L / 2) : ℚ), -(L / 2))]) ++ [candidate L { x := 0, y := -(L / 2), length := L, direction := Direction.H } ((L / 2 : ℚ), -(L / 2))]) ++ [candidate L { x := 0, y := L / 2, length := L, direction := Direction.H } ((-(L / 2) : ℚ), L / 2)]).any
      (tpEq (candidate L { x := 0, y := L / 2, length := L, direction := Direction.H } ((L / 2 : ℚ), L / 2))) = false := by
    simp [tpEq, candidate, hz2, hn1, hn2]
  simp only [generate_next_generation, stateGen1]
  rw [hv]
  rw [pv_skip_used M1, pv_skip_used M2]
  rw [pv_append H31 H32 H33 H34]
  rw [pv_append H41 H42 H43 H44]
  rw [pv_append H51 H52 H53 H54]
  rw [pv_append H61 H62 H63 H64]
  simp [processVisits, stateGen2, candidate]
set_option maxHeartbeats 1000000 in
lemma bounds_stateGen2 (L : ℚ) (hL : 0 < L) : get_bounds (stateGen2 L) =
    (((-(L / 2) : ℚ) : WithTop ℚ), ((L / 2 : ℚ) : WithBot ℚ),
     ((-L : ℚ) : WithTop ℚ), ((L : ℚ) : WithBot ℚ)) := by
  have hVH : (Direction.V = Direction.H) = False := by simp
  have hv : visitList (stateGen2 L).toothpicks =
      [({ x := 0, y := 0, length := L, direction := Direction.V },
         ((0 : ℚ), -(L / 2))),
       ({ x := 0, y := 0, length := L, direction := Direction.V },
         ((0 : ℚ), L / 2)),
       ({ x := 0, y := -(L / 2), length := L, direction := Direction.H },
         ((-(L / 2) : ℚ), -(L / 2))),
       ({ x := 0, y := -(L / 2), length := L, direction := Direction.H },
         ((L / 2 : ℚ), -(L / 2))),
       ({ x := 0, y := L / 2, length := L, direction := Direction.H },
         ((-(L / 2) : ℚ), L / 2)),
       ({ x := 0, y := L / 2, length := L, direction := Direction.H },
         ((L / 2 : ℚ), L / 2)),
       ({ x := -(L / 2), y := -(L / 2), length := L, direction := Direction.V },
         ((-(L / 2) : ℚ), -L)),
       ({ x := -(L / 2), y := -(L / 2), length := L, direction := Direction.V },
         ((-(L / 2) : ℚ), 0)),
       ({ x := L / 2, y := -(L / 2), length := L, direction := Direction.V },
         ((L / 2 : ℚ), -L)),
       ({ x := L / 2, y := -(L / 2), length := L, direction := Direction.V },
         ((L / 2 : ℚ), 0)),
       ({ x := -(L / 2), y := L / 2, length := L, direction := Direction.V },
         ((-(L / 2) : ℚ), 0)),
       ({ x := -(L / 2), y := L / 2, length := L, direction := Direction.V },
         ((-(L / 2) : ℚ), L)),
       ({ x := L / 2, y := L / 2, length := L, direction := Direction.V },
         ((L / 2 : ℚ), 0)),
       ({ x := L / 2, y := L / 2, length := L, direction := Direction.V },
         ((L / 2 : ℚ), L))] := by
    simp only [stateGen2, visitList, Toothpick.get_endpoints, hVH, if_false]
    norm_num
    ring_nf
  have tmin : ∀ a : WithTop ℚ, min ⊤ a = a := fun a => min_eq_right le_top
  have bmax : ∀ a : WithBot ℚ, max ⊥ a = a := fun a => max_eq_right bot_le
  have cmin : ∀ a b : ℚ, min ((a : ℚ) : WithTop ℚ) ((b : ℚ) : WithTop ℚ) =
      ((min a b : ℚ) : WithTop ℚ) := fun a b => (WithTop.coe_min a b).symm
  have cmax : ∀ a b : ℚ, max ((a : ℚ) : WithBot ℚ) ((b : ℚ) : WithBot ℚ) =
      ((max a b : ℚ) : WithBot ℚ) := fun a b => (WithBot.coe_max a b).symm
  have Hxa : min (0 : ℚ) (-(L / 2)) = -(L / 2) := min_eq_right (by linarith)
  have Hxb : min (-(L / 2) : ℚ) (L / 2) = -(L / 2) := min_eq_left (by linarith)
  have Hxc : max (0 : ℚ) (-(L / 2)) = 0 := max_eq_left (by linarith)
  have Hxd : max (0 : ℚ) (L / 2) = L / 2 := max_eq_right (by linarith)
  have Hxe : max (L / 2 : ℚ) (-(L / 2)) = L / 2 := max_eq_left (by linarith)
  have Hyb : min (-(L / 2) : ℚ) (-L) = -L := min_eq_right (by linarith)
  have Hyc : min (-L : ℚ) 0 = -L := min_eq_left (by linarith)
  have Hyd : min (-L : ℚ) L = -L := min_eq_left (by linarith)
  have Hye : max (-(L / 2) : ℚ) (L / 2) = L / 2 := max_eq_right (by linarith)
  have Hyf : max (L / 2 : ℚ) (-L) = L / 2 := max_eq_left (by linarith)
  have Hyg : max (L / 2 : ℚ) 0 = L / 2 := max_eq_left (by linarith)
  have Hyh : max (L / 2 : ℚ) L = L := max_eq_right (by linarith)
  have Hyi : max (L : ℚ) 0 = L := max_eq_left (by linarith)
  rw [get_bounds, if_neg (by simp [stateGen2]), hv]
  simp only [List.foldl_cons, List.foldl_nil, tmin, bmax, cmin, cmax]
  simp only [Prod.mk.injEq, WithTop.coe_eq_coe, WithBot.coe_eq_coe]
  refine ⟨?_, ?_, ?_, ?_⟩ <;>
    simp [Hxa, Hxb, Hxc, Hxd, Hxe, Hyb, Hyc, Hyd, Hye, Hyf, Hyg, Hyh, Hyi]

lemma step_nodup (L : ℚ) {s : FractalState}
    (h : List.Pairwise (fun a b => tpEq a b = false) s.toothpicks) :
    List.Pairwise (fun a b => tpEq a b = false)
      (generate_next_generation L s).toothpicks := by
  have hp := pv_nodup L s.toothpicks (visitList s.toothpicks) []
    s.used_endpoints List.Pairwise.nil (by simp)
  refine List.pairwise_append.mpr ⟨h, hp.1, ?_⟩
  intro a ha b hb
  rw [tpEq_symm]
  exact hp.2 b hb a ha

lemma step_card (L : ℚ) {s : FractalState}
    (h : s.used_endpoints.card + 1 = s.toothpicks.length) :
    (generate_next_generation L s).used_endpoints.card + 1 =
      (generate_next_generation L s).toothpicks.length := by
  have hp := pv_card L s.toothpicks (visitList s.toothpicks) []
    s.used_endpoints
  simp only [List.length_nil] at hp
  simp only [generate_next_generation, List.length_append]
  omega

lemma step_used_mono (L : ℚ) (s : FractalState) :
    s.used_endpoints ⊆ (generate_next_generation L s).used_endpoints :=
  pv_used_mono L s.toothpicks (visitList s.toothpicks) [] s.used_endpoints

lemma step_new_center (L : ℚ) {s : FractalState} {t : Toothpick}
    (ht : t ∈ (generate_next_generation L s).toothpicks)
    (hnt : t ∉ s.toothpicks) : (t.x, t.y) ∉ s.used_endpoints := by
  simp only [generate_next_generation] at ht
  have hmem : t ∈ (processVisits L s.toothpicks (visitList s.toothpicks) []
      s.used_endpoints).1 := by
    rcases List.mem_append.mp ht with h | h
    · exact absurd h hnt
    · exact h
  exact pv_center_not_used L s.toothpicks s.used_endpoints
    (visitList s.toothpicks) [] s.used_endpoints (Finset.Subset.refl _)
    (by simp) t hmem

/-- C1: from the initial state (one vertical segment of length L centred at
the origin, generation 0, empty used set), the first step yields exactly the
three segments seed, horizontal at (0, -L/2) and horizontal at (0, L/2) with
generation 1, and the second step yields exactly seven segments, the four new
ones vertical at (-L/2, -L/2), (L/2, -L/2), (-L/2, L/2), (L/2, L/2), with
generation 2. -/
theorem c1_two_step_trace (L : ℚ) (hL : 0 < L) :
    generate_next_generation L (reset_fractal L) = stateGen1 L ∧
    generate_next_generation L (generate_next_generation L
      (reset_fractal L)) = stateGen2 L := by
  have h1 := step_reset_eq L (ne_of_gt hL)
  refine ⟨h1, ?_⟩
  rw [h1]
  exact step_stateGen1_eq L (ne_of_gt hL)

theorem c1_witness : (0 : ℚ) < 1 ∧
    (generate_next_generation 1 (reset_fractal 1) = stateGen1 1 ∧
     generate_next_generation 1 (generate_next_generation 1
       (reset_fractal 1)) = stateGen2 1) :=
  ⟨one_pos, c1_two_step_trace 1 one_pos⟩

/-- C2, counterexample to the claim as stated: after two steps with length 2,
the bounds are not (-L, L, -L, L) = (-2, 2, -2, 2); the x-extent after two
generations is only half the y-extent. -/
theorem c2_counterexample : get_bounds (generate_next_generation 2
      (generate_next_generation 2 (reset_fractal 2))) ≠
    (((-2 : ℚ) : WithTop ℚ), ((2 : ℚ) : WithBot ℚ),
     ((-2 : ℚ) : WithTop ℚ), ((2 : ℚ) : WithBot ℚ)) := by
  rw [step_reset_eq 2 (by norm_num), step_stateGen1_eq 2 (by norm_num),
    bounds_stateGen2 2 (by norm_num)]
  intro hc
  rw [Prod.mk.injEq] at hc
  have := hc.1
  norm_num at this

/-- C2, amended: after exactly two steps from the seed with positive length
L, the bounds query returns exactly (-L/2, L/2, -L, L): the y-range reaches
-L and L, but the x-range only reaches -L/2 and L/2. -/
theorem c2_bounds_amended (L : ℚ) (hL : 0 < L) :
    get_bounds (generate_next_generation L (generate_next_generation L
      (reset_fractal L))) =
    (((-(L / 2) : ℚ) : WithTop ℚ), ((L / 2 : ℚ) : WithBot ℚ),
     ((-L : ℚ) : WithTop ℚ), ((L : ℚ) : WithBot ℚ)) := by
  rw [step_reset_eq L (ne_of_gt hL), step_stateGen1_eq L (ne_of_gt hL)]
  exact bounds_stateGen2 L hL

theorem c2_witness : (0 : ℚ) < 1 ∧
    get_bounds (generate_next_generation 1 (generate_next_generation 1
      (reset_fractal 1))) =
    (((-(1 / 2) : ℚ) : WithTop ℚ), ((1 / 2 : ℚ) : WithBot ℚ),
     ((-1 : ℚ) : WithTop ℚ), ((1 : ℚ) : WithBot ℚ)) :=
  ⟨one_pos, c2_bounds_amended 1 one_pos⟩

/-- C3: in every state reachable from reset by any number of steps, no two
segments of the collection are equal under Segment equality (equal
(x, y, orientation) triples); the invariant is preserved by every step. -/
theorem c3_no_duplicates (L : ℚ) (s : FractalState) (h : Reachable L s) :
    List.Pairwise (fun a b => tpEq a b = false) s.toothpicks := by
  induction h with
  | reset => simp [reset_fractal]
  | step s hs ih => exact step_nodup L ih

theorem c3_witness : Reachable 1 (generate_next_generation 1
      (reset_fractal 1)) ∧
    List.Pairwise (fun a b => tpEq a b = false)
      (generate_next_generation 1 (reset_fractal 1)).toothpicks :=
  ⟨Reachable.step _ Reachable.reset,
   c3_no_duplicates 1 _ (Reachable.step _ Reachable.reset)⟩

/-- C4: for every reachable state and coordinate already in used_endpoints,
the coordinate is still in used_endpoints after every number of further steps,
and no later step ever appends a new segment centred at it. -/
theorem c4_used_once (L : ℚ) (s : FractalState) (hr : Reachable L s)
    (e : ℚ × ℚ) (he : e ∈ s.used_endpoints) (n : ℕ) :
    e ∈ ((generate_next_generation L)^[n] s).used_endpoints ∧
    ∀ t ∈ ((generate_next_generation L)^[n + 1] s).toothpicks,
      t ∉ ((generate_next_generation L)^[n] s).toothpicks →
      (t.x, t.y) ≠ e := by
  have mono : ∀ m : ℕ,
      e ∈ ((generate_next_generation L)^[m] s).used_endpoints := by
    intro m
    induction m with
    | zero => simpa using he
    | succ k ih =>
      rw [Function.iterate_succ_apply']
      exact step_used_mono L _ ih
  refine ⟨mono n, ?_⟩
  intro t ht hnt hc
  rw [Function.iterate_succ_apply'] at ht
  have hnu := step_new_center L ht hnt
  rw [hc] at hnu
  exact hnu (mono n)

theorem c4_witness : ((0 : ℚ), -(1 / 2)) ∈
    ((generate_next_generation 1)^[1] (generate_next_generation 1
      (reset_fractal 1))).used_endpoints :=
  (c4_used_once 1 _ (Reachable.step _ Reachable.reset) (0, -(1 / 2))
    (by rw [step_reset_eq 1 one_ne_zero]; simp [stateGen1]) 1).1

/-- C5: in a state where no endpoint is eligible to spawn (each visited
endpoint is already used, or has touching count different from 1, or its
candidate duplicates an existing segment), the step leaves segments and
used_endpoints exactly unchanged and only increments the generation. -/
theorem c5_no_eligible_frame (L : ℚ) (s : FractalState)
    (h : ∀ p ∈ visitList s.toothpicks, p.2 ∈ s.used_endpoints ∨
      touchingCount s.toothpicks p.2 ≠ 1 ∨
      s.toothpicks.any (tpEq (candidate L p.1 p.2)) = true) :
    generate_next_generation L s =
      { toothpicks := s.toothpicks
        current_generation := s.current_generation + 1
        used_endpoints := s.used_endpoints } := by
  have hp := pv_noop L s.toothpicks (visitList s.toothpicks) []
    s.used_endpoints h
  simp only [generate_next_generation, hp, List.append_nil]

/-- A concrete state in which both endpoints of the single segment are
already used, so a step can change nothing but the generation. -/
def frameDemoState : FractalState :=
  { toothpicks := [{ x := 0, y := 0, length := 1, direction := Direction.V }]
    current_generation := 0
    used_endpoints := {((0 : ℚ), -(1 / 2)), ((0 : ℚ), 1 / 2)} }

theorem c5_witness :
    (∀ p ∈ visitList frameDemoState.toothpicks,
      p.2 ∈ frameDemoState.used_endpoints ∨
      touchingCount frameDemoState.toothpicks p.2 ≠ 1 ∨
      frameDemoState.toothpicks.any (tpEq (candidate 1 p.1 p.2)) = true) ∧
    generate_next_generation 1 frameDemoState =
      { toothpicks := frameDemoState.toothpicks
        current_generation := frameDemoState.current_generation + 1
        used_endpoints := frameDemoState.used_endpoints } :=
  ⟨by simp [frameDemoState, visitList, Toothpick.get_endpoints],
   c5_no_eligible_frame 1 frameDemoState
     (by simp [frameDemoState, visitList, Toothpick.get_endpoints])⟩

/-- C6: for every input state, the step whose used-endpoint check at 3a reads
the set as updated so far within the step (the source behaviour) produces
exactly the same next state as the step whose check reads only the original
pre-step used set: the spec's two descriptions of the check agree. -/
theorem c6_pre_vs_working (L : ℚ) (s : FractalState) :
    generate_next_generation L s = generate_next_generation_pre L s := by
  have h := pv_eq_pre L s.toothpicks s.used_endpoints
    (visitList s.toothpicks) [] s.used_endpoints
    (fun p hp => mem_visitList hp) (Finset.Subset.refl _)
    (fun e he hne => absurd he hne)
  simp only [generate_next_generation, generate_next_generation_pre, h]

/-- C7, counterexample to the claim as stated: for a single segment of length
0 both endpoints coincide, so the one-pass Endpoint Index counts it twice at
that coordinate while the direct membership scan counts it once. -/
theorem c7_counterexample : touching_count (buildIndex
      [{ x := 0, y := 0, length := 0, direction := Direction.H }]) (0, 0) ≠
    touchingCount
      [{ x := 0, y := 0, length := 0, direction := Direction.H }] (0, 0) := by
  have hL : touching_count (buildIndex
      [({ x := 0, y := 0, length := 0, direction := Direction.H } :
        Toothpick)]) (0, 0) = 2 := by
    norm_num [buildIndex, buildIndexAux, bumpKey, touching_count,
      Toothpick.get_endpoints]
  have hR : touchingCount
      [({ x := 0, y := 0, length := 0, direction := Direction.H } :
        Toothpick)] (0, 0) = 1 := by
    norm_num [touchingCount, Toothpick.get_endpoints]
  rw [hL, hR]
  norm_num

/-- C7, amended: for every segment list whose segments all have nonzero
length (so no segment's endpoints coincide) and every point, the touching
count read from the one-pass Endpoint Index equals the count of the direct
pairwise scan, and consequently the step using the index produces exactly the
same next state as the step using the scan. -/
theorem c7_index_equiv_amended (L : ℚ) (s : FractalState) (p : ℚ × ℚ)
    (h : ∀ t ∈ s.toothpicks, t.length ≠ 0) :
    touching_count (buildIndex s.toothpicks) p =
      touchingCount s.toothpicks p ∧
    generate_next_generation_idx L s = generate_next_generation L s := by
  refine ⟨index_count_eq h p, ?_⟩
  have hq := pv_idx_eq L s.toothpicks (index_count_eq h)
    (visitList s.toothpicks) [] s.used_endpoints
  simp only [generate_next_generation, generate_next_generation_idx, hq]

theorem c7_witness :
    (∀ t ∈ (reset_fractal 1).toothpicks, t.length ≠ 0) ∧
    (touching_count (buildIndex (reset_fractal 1).toothpicks) (0, 0) =
      touchingCount (reset_fractal 1).toothpicks (0, 0) ∧
    generate_next_generation_idx 1 (reset_fractal 1) =
      generate_next_generation 1 (reset_fractal 1)) :=
  ⟨by simp [reset_fractal],
   c7_index_equiv_amended 1 (reset_fractal 1) (0, 0)
     (by simp [reset_fractal])⟩

/-- C8: a step never removes segments: the segment count after a step is at
least the segment count before it, for every state. -/
theorem c8_monotonic_growth (L : ℚ) (s : FractalState) :
    segment_count s ≤ segment_count (generate_next_generation L s) := by
  simp only [segment_count, generate_next_generation, List.length_append]
  exact Nat.le_add_right _ _

/-- C9: for every positive length, reset yields the initial state: exactly one
segment, generation 0, and an empty used set, independent of any prior
state. -/
theorem c9_reset (L : ℚ) (hL : 0 < L) :
    segment_count (reset_fractal L) = 1 ∧
    (reset_fractal L).current_generation = 0 ∧
    (reset_fractal L).used_endpoints = ∅ :=
  ⟨rfl, rfl, rfl⟩

theorem c9_witness : (0 : ℚ) < 1 ∧
    (segment_count (reset_fractal 1) = 1 ∧
     (reset_fractal 1).current_generation = 0 ∧
     (reset_fractal 1).used_endpoints = ∅) :=
  ⟨one_pos, c9_reset 1 one_pos⟩

/-- C10: in every reachable state the cardinality of used_endpoints is the
number of segments minus one: each step appends a new segment exactly when it
marks its centre used, with a fresh coordinate each time. -/
theorem c10_used_card (L : ℚ) (s : FractalState) (h : Reachable L s) :
    s.used_endpoints.card + 1 = segment_count s := by
  induction h with
  | reset => rfl
  | step s hs ih => exact step_card L ih

theorem c10_witness : Reachable 1 (generate_next_generation 1
      (reset_fractal 1)) ∧
    (generate_next_generation 1
      (reset_fractal 1)).used_endpoints.card + 1 =
      segment_count (generate_next_generation 1 (reset_fractal 1)) :=
  ⟨Reachable.step _ Reachable.reset,
   c10_used_card 1 _ (Reachable.step _ Reachable.reset)⟩
